import Mathlib

set_option autoImplicit false

/-!
Shallow embedding of `src/smtp/client.ts` — the send-orchestration layer of the
emailjs SMTP client (class `Client`).

The TypeScript code is continuation-passing: every transport call
(`smtp.connect`, `smtp.mail`, `smtp.rcpt`, ...) takes a callback that receives
an error-or-null later.  The embedding turns this into an explicit event-step
machine: the pending continuation is recorded in a `Phase` register of the
client state, transport calls and callback invocations are emitted as `Action`s,
and the environment delivers completion signals as `Event`s to a total `step`
function.  JavaScript exceptions (the `throw` in `_sendrcpt`, and property
access on `undefined`) are modelled with `Except JsError`.

The transport object `SMTPConnection` lives in `src/smtp/smtp.ts`, which is not
part of the sources; the few facts about it that the embedding needs (its
tri-state connection state and how `connect` / a failed connect / `quit` /
`close` move that state) are modelled from the spec and marked as such below.
-/

namespace EmailJs

/-- A record produced by the external `addressparser` package: an ordered
sequence of such records, each exposing an `address` field, is the parse of a
header string (spec section 6). -/
structure ParsedAddress where
  address : String
  deriving DecidableEq, Repr

/-- Errors handed to continuations (`Error` objects in the code) are opaque
here; a string carries the message. -/
abbrev Err := String

/-- A thrown JavaScript exception.  `_sendrcpt` throws
`new TypeError` with message `stack.to must be array` explicitly; reading `.address` off
the `undefined` returned by `shift()` on an empty array throws a runtime
`TypeError` as well. -/
inductive JsError where
  | typeError (msg : String)
  deriving DecidableEq, Repr

/-- Runtime value of the recipient-list field of a stack.  Its TS type is the addressparser
result list, but `_sendrcpt` defends against `null` and string values at
runtime, so those are representable. -/
inductive RecipField where
  | jsNull
  | jsStr (s : String)
  | jsList (l : List ParsedAddress)
  deriving DecidableEq, Repr

/-- A Pending Send (`MessageStack` in the code).  The opaque message payload
and the bound callback are identified by `msgId`: the trace action
`Action.cb msgId err` stands for `stack.callback(err, stack.message)`.
`returnPath` is `none` when the field was never assigned (left `undefined`). -/
structure MessageStack where
  msgId : Nat
  «from» : String
  «to» : RecipField
  returnPath : Option String
  deriving DecidableEq, Repr

/-- Modelled from the spec: the `SMTPState` enum of `src/smtp/smtp.ts` (not
under src/).  The spec (section 3) describes a tri-state connection view; the
client code compares `smtp.state()` against `NOTCONNECTED` and `CONNECTED`. -/
inductive SMTPState where
  | NOTCONNECTED
  | CONNECTING
  | CONNECTED
  deriving DecidableEq, Repr

/-- The pending continuation of the single outstanding asynchronous transport
call, i.e. which callback the next completion signal will run.  Each
constructor carries the `stack` closed over by that callback in the code. -/
inductive Phase where
  | idle
  | connecting (stack : MessageStack)
  | authing (stack : MessageStack)
  | awaitingMail (stack : MessageStack)
  | awaitingRcpt (stack : MessageStack)
  | awaitingData (stack : MessageStack)
  | streaming (stack : MessageStack)
  | awaitingDataEnd (stack : MessageStack)
  | awaitingRset (e : Err) (stack : MessageStack)
  deriving DecidableEq, Repr

/-- Commands the client issues on the transport (plus `quit` from the idle
timer).  `message` is `smtp.message(data)` forwarding one body chunk. -/
inductive Cmd where
  | connect
  | login
  | ehloOrHelo
  | mail (arg : String)
  | rcpt (arg : String)
  | data
  | message (chunk : Nat)
  | dataEnd
  | rset
  | quit
  | close
  deriving DecidableEq, Repr

/-- Observable actions: a transport command, a queued stack's completion
callback `stack.callback(err, stack.message)` (identified by `msgId`), or the
caller's callback invoked before any stack exists (the synchronous rejection in
`send` and the invalid-message branch of the `valid` continuation). -/
inductive Action where
  | cmd (c : Cmd)
  | cb (msgId : Nat) (err : Option Err)
  | cbErr (reason : String)
  deriving DecidableEq, Repr

/-- Client state: the queue and flags of the `Client` class, the transport's
connection state (modelled from the spec, see `SMTPState`), whether the
transport reports itself authorized (read-only to the client, queried in
`_connect`), and the pending-continuation register. -/
structure ClientState where
  queue : List MessageStack
  sending : Bool
  ready : Bool
  timer : Bool
  smtpState : SMTPState
  authorized : Bool
  phase : Phase
  deriving DecidableEq, Repr

/-- Completion signals and external stimuli delivered to the client: each
`...Result` event resumes the continuation a transport call registered;
`submit` is the enqueue performed by the `valid` continuation of `send`
(`this.queue.push(stack); this._poll()`); `streamChunk` / `streamEnd` /
`streamError` are the message body stream's events; `timerFire` is the idle
timer elapsing. -/
inductive Event where
  | submit (stack : MessageStack)
  | connectResult (err : Option Err)
  | authResult (err : Option Err)
  | mailResult (err : Option Err)
  | rcptResult (err : Option Err)
  | dataResult (err : Option Err)
  | streamChunk (c : Nat)
  | streamEnd
  | streamError (e : Err)
  | dataEndResult (err : Option Err)
  | rsetResult (err : Option Err)
  | timerFire
  deriving DecidableEq, Repr

/-- `Client._connect` lines 114–150, the part that runs synchronously: sets
`this.ready = false` and calls `this.smtp.connect(connect)`.  The registered
continuation is `Phase.connecting stack`.  Modelled from the spec: starting a
connect moves the transport into its connecting state. -/
def _connect (s : ClientState) (stack : MessageStack) : ClientState × List Action :=
  ({ s with ready := false, phase := Phase.connecting stack,
            smtpState := SMTPState.CONNECTING },
   [Action.cmd Cmd.connect])

/-- `Client._sendmail` lines 220–224: `const from = stack.returnPath ||
stack.from` (JavaScript `||`: `undefined` and the empty string both fall back
to `stack.from`), sets `this.sending = true`, and issues
`smtp.mail(..., '<' + from + '>')` whose continuation is
`_sendsmtp(stack, _sendrcpt)`. -/
def _sendmail (s : ClientState) (stack : MessageStack) : ClientState × List Action :=
  let «from» :=
    match stack.returnPath with
    | some r => if r = "" then stack.«from» else r
    | none => stack.«from»
  ({ s with sending := true, phase := Phase.awaitingMail stack },
   [Action.cmd (Cmd.mail ("<" ++ «from» ++ ">"))])

/-- `Client._poll` lines 86–107: cancel the idle timer; when the queue is
non-empty either begin a connect for `queue[0]` (state NOTCONNECTED) or
dequeue (`queue.shift()`) and begin the envelope (state CONNECTED, not
sending, ready); when the queue is empty and the state is CONNECTED, arm the
1-second timer whose firing calls `smtp.quit()`. -/
def _poll (s : ClientState) : ClientState × List Action :=
  let s0 := { s with timer := false }
  match s0.queue with
  | stack :: rest =>
    if s0.smtpState = SMTPState.NOTCONNECTED then
      _connect s0 stack
    else if s0.smtpState = SMTPState.CONNECTED ∧ s0.sending = false ∧ s0.ready = true then
      _sendmail { s0 with queue := rest } stack
    else
      (s0, [])
  | [] =>
    if s0.smtpState = SMTPState.CONNECTED then
      ({ s0 with timer := true }, [])
    else
      (s0, [])

/-- `Client._senddone` lines 281–285: clear `this.sending`, invoke
`stack.callback(err, stack.message)`, re-invoke `this._poll()`. -/
def _senddone (err : Option Err) (s : ClientState) (stack : MessageStack) :
    ClientState × List Action :=
  let s1 := { s with sending := false, phase := Phase.idle }
  let p := _poll s1
  (p.1, Action.cb stack.msgId err :: p.2)

/-- `Client._sendsmtp` lines 199–213, the continuation it returns: on a null
error run the caller-supplied `next` on the same stack; otherwise call
`smtp.rset(() => this._senddone(err, stack))` — the rset's own outcome is
discarded, see the `rsetResult` case of `step`. -/
def _sendsmtp (next : ClientState → MessageStack → Except JsError (ClientState × List Action))
    (s : ClientState) (stack : MessageStack) (err : Option Err) :
    Except JsError (ClientState × List Action) :=
  match err with
  | none => next s stack
  | some e =>
    Except.ok ({ s with phase := Phase.awaitingRset e stack }, [Action.cmd Cmd.rset])

/-- `Client._sendrcpt` lines 231–241: throws a `TypeError` with message
`stack.to must be array` when the recipient field is `null`/`undefined` or a string; otherwise
the shift-and-read `.address` — on an empty array `shift()` yields `undefined`
and the `.address` read throws a runtime TypeError; otherwise issue
`smtp.rcpt(..., '<' + to + '>')` for the removed first address, with
continuation `_sendsmtp(stack, stack.«to».length ? _sendrcpt : _senddata)`. -/
def _sendrcpt (s : ClientState) (stack : MessageStack) :
    Except JsError (ClientState × List Action) :=
  match stack.«to» with
  | RecipField.jsNull => Except.error (JsError.typeError "stack.to must be array")
  | RecipField.jsStr _ => Except.error (JsError.typeError "stack.to must be array")
  | RecipField.jsList [] =>
    Except.error (JsError.typeError "Cannot read properties of undefined")
  | RecipField.jsList (a :: rest) =>
    let stack1 := { stack with «to» := RecipField.jsList rest }
    Except.ok ({ s with phase := Phase.awaitingRcpt stack1 },
               [Action.cmd (Cmd.rcpt ("<" ++ a.address ++ ">"))])

/-- `Client._senddata` lines 248–250: issue `smtp.data` with continuation
`_sendsmtp(stack, _sendmessage)`. -/
def _senddata (s : ClientState) (stack : MessageStack) : ClientState × List Action :=
  ({ s with phase := Phase.awaitingData stack }, [Action.cmd Cmd.data])

/-- `Client._sendmessage` lines 257–273: obtain the body stream and register
its three handlers; no transport command is issued until stream events arrive
(see the `streamChunk` / `streamEnd` / `streamError` cases of `step`). -/
def _sendmessage (s : ClientState) (stack : MessageStack) : ClientState × List Action :=
  ({ s with phase := Phase.streaming stack }, [])

/-- The `connect` callback inside `Client._connect` (lines 119–146): on
success branch on `smtp.authorized()` to issue `login` or
`ehlo_or_helo_if_needed`, both with the `begin` continuation; on failure call
`stack.callback(err, ...)`, `this.queue.shift()`, `this._poll()`.  Modelled
from the spec: a successful connect leaves the transport CONNECTED, a failed
one leaves it NOTCONNECTED. -/
def connectCb (s : ClientState) (stack : MessageStack) (err : Option Err) :
    ClientState × List Action :=
  match err with
  | none =>
    ({ s with smtpState := SMTPState.CONNECTED, phase := Phase.authing stack },
     [Action.cmd (if s.authorized then Cmd.ehloOrHelo else Cmd.login)])
  | some e =>
    let s1 := { s with smtpState := SMTPState.NOTCONNECTED, phase := Phase.idle,
                       queue := s.queue.tail }
    let p := _poll s1
    (p.1, Action.cb stack.msgId (some e) :: p.2)

/-- The `begin` continuation inside `Client._connect` (lines 121–132): on
success set `this.ready = true` and `this._poll()`; on failure call
`stack.callback(err, ...)`, `this.queue.shift()`, `this._poll()`. -/
def beginCb (s : ClientState) (stack : MessageStack) (err : Option Err) :
    ClientState × List Action :=
  match err with
  | none => _poll { s with ready := true, phase := Phase.idle }
  | some e =>
    let s1 := { s with phase := Phase.idle, queue := s.queue.tail }
    let p := _poll s1
    (p.1, Action.cb stack.msgId (some e) :: p.2)

/-- Caller-supplied next step after MAIL: `_sendrcpt` (line 223). -/
def nextAfterMail (s : ClientState) (stack : MessageStack) :
    Except JsError (ClientState × List Action) :=
  _sendrcpt s stack

/-- Caller-supplied next step after an RCPT: recipients-remaining chooses _sendrcpt,
_senddata` (line 238).  The condition reads the post-shift list, which is
exactly the `to` stored in the awaiting stack. -/
def nextAfterRcpt (s : ClientState) (stack : MessageStack) :
    Except JsError (ClientState × List Action) :=
  match stack.«to» with
  | RecipField.jsList [] => Except.ok (_senddata s stack)
  | _ => _sendrcpt s stack

/-- Caller-supplied next step after DATA: `_sendmessage` (line 249). -/
def nextAfterData (s : ClientState) (stack : MessageStack) :
    Except JsError (ClientState × List Action) :=
  Except.ok (_sendmessage s stack)

/-- Caller-supplied next step after end-of-data:
`() => this._senddone(null, stack)` (line 263). -/
def nextAfterDataEnd (s : ClientState) (stack : MessageStack) :
    Except JsError (ClientState × List Action) :=
  Except.ok (_senddone none s stack)

/-- The event-step function: dispatches a completion signal to the
continuation recorded in `phase`, exactly as the closures in `client.ts`
would run.  Signals arriving with no matching continuation pending have no
handler registered and are ignored.  The `timerFire` effect on the transport
(`smtp.quit()` gracefully closing the connection) and the `streamError`
effect (`smtp.close()` tearing it down, lines 269–272) are modelled from the
spec. -/
def step (s : ClientState) : Event → Except JsError (ClientState × List Action)
  | Event.submit stack => Except.ok (_poll { s with queue := s.queue ++ [stack] })
  | Event.connectResult err =>
    match s.phase with
    | Phase.connecting stack => Except.ok (connectCb s stack err)
    | _ => Except.ok (s, [])
  | Event.authResult err =>
    match s.phase with
    | Phase.authing stack => Except.ok (beginCb s stack err)
    | _ => Except.ok (s, [])
  | Event.mailResult err =>
    match s.phase with
    | Phase.awaitingMail stack => _sendsmtp nextAfterMail s stack err
    | _ => Except.ok (s, [])
  | Event.rcptResult err =>
    match s.phase with
    | Phase.awaitingRcpt stack => _sendsmtp nextAfterRcpt s stack err
    | _ => Except.ok (s, [])
  | Event.dataResult err =>
    match s.phase with
    | Phase.awaitingData stack => _sendsmtp nextAfterData s stack err
    | _ => Except.ok (s, [])
  | Event.streamChunk c =>
    match s.phase with
    | Phase.streaming _ => Except.ok (s, [Action.cmd (Cmd.message c)])
    | _ => Except.ok (s, [])
  | Event.streamEnd =>
    match s.phase with
    | Phase.streaming stack =>
      Except.ok ({ s with phase := Phase.awaitingDataEnd stack }, [Action.cmd Cmd.dataEnd])
    | _ => Except.ok (s, [])
  | Event.streamError e =>
    match s.phase with
    | Phase.streaming stack =>
      let s1 := { s with smtpState := SMTPState.NOTCONNECTED }
      let p := _senddone (some e) s1 stack
      Except.ok (p.1, Action.cmd Cmd.close :: p.2)
    | _ => Except.ok (s, [])
  | Event.dataEndResult err =>
    match s.phase with
    | Phase.awaitingDataEnd stack => _sendsmtp nextAfterDataEnd s stack err
    | _ => Except.ok (s, [])
  | Event.rsetResult _ =>
    match s.phase with
    | Phase.awaitingRset e stack => Except.ok (_senddone (some e) s stack)
    | _ => Except.ok (s, [])
  | Event.timerFire =>
    if s.timer then
      Except.ok ({ s with timer := false, smtpState := SMTPState.NOTCONNECTED },
                 [Action.cmd Cmd.quit])
    else
      Except.ok (s, [])

/-- Run a list of events, threading state and concatenating emitted actions;
a thrown exception aborts the run. -/
def run : ClientState → List Event → Except JsError (ClientState × List Action)
  | s, [] => Except.ok (s, [])
  | s, e :: es =>
    match step s e with
    | Except.error j => Except.error j
    | Except.ok (s1, a1) =>
      match run s1 es with
      | Except.error j => Except.error j
      | Except.ok (s2, a2) => Except.ok (s2, a1 ++ a2)

/-- The state of a freshly constructed `Client`: empty queue, flags down, no
timer, transport not connected. -/
def initState : ClientState :=
  { queue := [], sending := false, ready := false, timer := false,
    smtpState := SMTPState.NOTCONNECTED, authorized := false, phase := Phase.idle }

/-- States the machine can reach from a fresh client under any event
sequence (steps that throw produce no successor). -/
inductive Reachable : ClientState → Prop
  | init : Reachable initState
  | next (s : ClientState) (e : Event) (s' : ClientState) (acts : List Action) :
      Reachable s → step s e = Except.ok (s', acts) → Reachable s'

/- ===== Validation and stack construction (`send`, lines 35–79) ===== -/

/-- A message attachment as far as `_isAttachmentInlinedHtml` inspects it. -/
structure MessageAttachment where
  data : Option String
  path : Option String
  alternative : Option Bool
  deriving DecidableEq, Repr

/-- The `attachment` field of a plain message record: absent, a single
attachment, or an array of attachments (`Array.isArray` distinguishes). -/
inductive AttachField where
  | undef
  | single (a : MessageAttachment)
  | array (l : List MessageAttachment)
  deriving DecidableEq, Repr

/-- The headers of a caller-supplied plain message record; `none` models an
absent (`undefined`) field. -/
structure MessageHeaders where
  «from» : Option String
  «to» : Option String
  cc : Option String
  bcc : Option String
  returnPath : Option String
  text : Option String
  attachment : AttachField
  deriving DecidableEq, Repr

/-- JavaScript truthiness of a possibly absent string: `undefined` and `""`
are falsy. -/
def jsTruthy : Option String → Bool
  | none => false
  | some s => s != ""

/-- `Client._isAttachmentInlinedHtml` lines 185–191:
`attachment && (attachment.data || attachment.path) &&
attachment.alternative === true`. -/
def _isAttachmentInlinedHtml : Option MessageAttachment → Bool
  | none => false
  | some a => (jsTruthy a.data || jsTruthy a.path) && (a.alternative == some true)

/-- `Client._containsInlinedHtml` lines 170–178. -/
def _containsInlinedHtml : AttachField → Bool
  | AttachField.array l => l.any fun att => _isAttachmentInlinedHtml (some att)
  | AttachField.single a => _isAttachmentInlinedHtml (some a)
  | AttachField.undef => _isAttachmentInlinedHtml none

/-- `Client._canMakeMessage` lines 157–163: `msg.from && (msg.«to» || msg.cc ||
msg.bcc) && (msg.text !== undefined || containsInlinedHtml(msg.attachment))`. -/
def _canMakeMessage (msg : MessageHeaders) : Bool :=
  jsTruthy msg.«from» &&
  (jsTruthy msg.«to» || jsTruthy msg.cc || jsTruthy msg.bcc) &&
  (msg.text.isSome || _containsInlinedHtml msg.attachment)

/-- The synchronous part of `Client.send` (lines 35–46) for a plain record
(not already a `Message` instance): when `_canMakeMessage` rejects it, the
caller's callback fires at once with
`new Error('message is not a valid Message instance')` and the method
returns; otherwise the asynchronous `message.valid` check is started and
nothing observable happens yet. -/
def sendPlain (s : ClientState) (msg : MessageHeaders) : ClientState × List Action :=
  if _canMakeMessage msg then
    (s, [])
  else
    (s, [Action.cbErr "message is not a valid Message instance"])

/-- The stack construction inside the `valid` continuation of `Client.send`
(lines 50–72), parameterized by the external `addressparser` function
`parse`: `to` is the parse of the `to` header, extended by the parse of `cc`
and then `bcc` when those headers are truthy; `from` is
`addressparser(header.from)[0].address`, which throws when the parse is empty
(`[0]` is `undefined`); `returnPath` is assigned only when the `return-path`
header is truthy and parses to a non-empty list, and then holds the first
record's address. -/
def buildStack (parse : Option String → List ParsedAddress) (h : MessageHeaders)
    (msgId : Nat) : Except JsError MessageStack :=
  let to0 := parse h.«to»
  match parse h.«from» with
  | [] => Except.error (JsError.typeError "Cannot read properties of undefined")
  | f :: _ =>
    let to1 := if jsTruthy h.cc then to0 ++ parse h.cc else to0
    let to2 := if jsTruthy h.bcc then to1 ++ parse h.bcc else to1
    let rp : Option String :=
      if jsTruthy h.returnPath then
        match parse h.returnPath with
        | [] => none
        | r :: _ => some r.address
      else none
    Except.ok { msgId := msgId, «from» := f.address, «to» := RecipField.jsList to2,
                returnPath := rp }

/-- The `valid` continuation of `Client.send` (lines 48–79): when the message
reports invalid, the caller's callback fires with `new Error(why)`; when
valid, the stack is built (which may throw, see `buildStack`), pushed onto the
queue, and `_poll` is invoked. -/
def onValid (parse : Option String → List ParsedAddress) (msgId : Nat)
    (s : ClientState) (h : MessageHeaders) (valid : Bool) (why : String) :
    Except JsError (ClientState × List Action) :=
  if valid then
    match buildStack parse h msgId with
    | Except.error e => Except.error e
    | Except.ok stack => Except.ok (_poll { s with queue := s.queue ++ [stack] })
  else
    Except.ok (s, [Action.cbErr why])

/- ===== Claim C1: the poll scheduler ===== -/

/-- C1: each `_poll` invocation first cancels any pending idle timer; with a
non-empty queue and a NOTCONNECTED transport it begins a connect sequence for
the head element without dequeuing it; with a CONNECTED transport, no send in
flight and the ready flag set it dequeues the head and begins the envelope
sequence (MAIL); otherwise it does nothing.  With an empty queue it arms the
idle timer exactly when the transport is CONNECTED, and the timer firing
issues a graceful `quit`. -/
theorem claim_C1 :
    (∀ s stack rest, s.queue = stack :: rest →
      (s.smtpState = SMTPState.NOTCONNECTED →
        _poll s = _connect { s with timer := false } stack ∧
        (_poll s).1.queue = s.queue ∧
        (_poll s).2 = [Action.cmd Cmd.connect] ∧
        (_poll s).1.timer = false) ∧
      (s.smtpState = SMTPState.CONNECTED → s.sending = false → s.ready = true →
        _poll s = _sendmail { s with timer := false, queue := rest } stack ∧
        (_poll s).1.queue = rest ∧
        (_poll s).1.sending = true ∧
        (∃ arg, (_poll s).2 = [Action.cmd (Cmd.mail arg)]) ∧
        (_poll s).1.timer = false) ∧
      (s.smtpState ≠ SMTPState.NOTCONNECTED →
        ¬(s.smtpState = SMTPState.CONNECTED ∧ s.sending = false ∧ s.ready = true) →
        _poll s = ({ s with timer := false }, []))) ∧
    (∀ s, s.queue = [] →
      (s.smtpState = SMTPState.CONNECTED →
        _poll s = ({ s with timer := true }, [])) ∧
      (s.smtpState ≠ SMTPState.CONNECTED →
        _poll s = ({ s with timer := false }, []))) ∧
    (∀ s, s.timer = true →
      step s Event.timerFire =
        Except.ok ({ s with timer := false, smtpState := SMTPState.NOTCONNECTED },
                   [Action.cmd Cmd.quit])) := by
  refine ⟨?_, ?_, ?_⟩
  · intro s stack rest hq
    refine ⟨?_, ?_, ?_⟩
    · intro hns
      simp [_poll, hq, hns, _connect]
    · intro hc hsnd hrdy
      simp [_poll, hq, hc, hsnd, hrdy, _sendmail]
    · intro hns hnc
      simp only [_poll, hq]
      rw [if_neg hns, if_neg]
      intro ⟨h1, h2, h3⟩
      exact hnc ⟨h1, h2, h3⟩
  · intro s hq
    refine ⟨?_, ?_⟩
    · intro hc
      simp [_poll, hq, hc]
    · intro hnc
      simp only [_poll, hq]
      rw [if_neg]
      exact hnc
  · intro s ht
    simp [step, ht]

def c1stack : MessageStack :=
  { msgId := 0, «from» := "a@x.com",
    «to» := RecipField.jsList [⟨"b@y.com"⟩], returnPath := none }

def c1s1 : ClientState :=
  { queue := [c1stack], sending := false, ready := false, timer := true,
    smtpState := SMTPState.NOTCONNECTED, authorized := false, phase := Phase.idle }

def c1s2 : ClientState :=
  { c1s1 with smtpState := SMTPState.CONNECTED, ready := true, timer := false }

def c1s3 : ClientState :=
  { queue := [], sending := false, ready := true, timer := false,
    smtpState := SMTPState.CONNECTED, authorized := false, phase := Phase.idle }

theorem claim_C1_witness :
    _poll c1s1 = _connect { c1s1 with timer := false } c1stack ∧
    (_poll c1s2).1.queue = [] ∧
    _poll c1s3 = ({ c1s3 with timer := true }, []) ∧
    step { c1s3 with timer := true } Event.timerFire =
      Except.ok ({ c1s3 with timer := false, smtpState := SMTPState.NOTCONNECTED },
                 [Action.cmd Cmd.quit]) := by
  refine ⟨?_, ?_, ?_, ?_⟩
  · exact ((claim_C1.1 c1s1 c1stack [] rfl).1 rfl).1
  · exact (((claim_C1.1 c1s2 c1stack [] rfl).2.1 rfl rfl rfl).2.1)
  · exact ((claim_C1.2.1 c1s3 rfl).1 rfl)
  · exact claim_C1.2.2 { c1s3 with timer := true } rfl

/- ===== Claim C6: synchronous rejection of unsendable records ===== -/

/-- A record with a sender and a text body but none of `to`/`cc`/`bcc`. -/
def c6msg : MessageHeaders :=
  { «from» := some "sender@example.com", «to» := none, cc := none, bcc := none,
    returnPath := none, text := some "hello", attachment := AttachField.undef }

/-- C6 counterexample: for a record with a sender, a body, and no recipients,
`send` invokes the callback synchronously — but with the fixed generic reason
`message is not a valid Message instance` (line 44), not with a reason naming
the missing-recipients defect: the delivered string does not contain the words
`no recipients` as a substring. -/
theorem claim_C6_counterexample :
    sendPlain initState c6msg =
      (initState, [Action.cbErr "message is not a valid Message instance"]) ∧
    ¬ ("no recipients".toList <:+: "message is not a valid Message instance".toList) := by
  exact ⟨rfl, by decide⟩

/-- C6 amended: submitting a record that `_canMakeMessage` rejects (e.g. one
with a sender but no `to`, `cc`, or `bcc`) invokes the callback synchronously
with the fixed generic reason `message is not a valid Message instance` —
which does not name the specific defect — and leaves the queue untouched: no
element is added and no transport command is issued. -/
theorem claim_C6 : ∀ (s : ClientState) (msg : MessageHeaders),
    _canMakeMessage msg = false →
    sendPlain s msg = (s, [Action.cbErr "message is not a valid Message instance"]) ∧
    (sendPlain s msg).1.queue = s.queue ∧
    (∀ c, Action.cmd c ∉ (sendPlain s msg).2) := by
  intro s msg h
  refine ⟨?_, ?_, ?_⟩
  · simp [sendPlain, h]
  · simp [sendPlain, h]
  · intro c
    simp [sendPlain, h]

theorem claim_C6_witness :
    sendPlain initState c6msg =
      (initState, [Action.cbErr "message is not a valid Message instance"]) ∧
    (sendPlain initState c6msg).1.queue = initState.queue := by
  have h := claim_C6 initState c6msg (by decide)
  exact ⟨h.1, h.2.1⟩

/- ===== Claim C7: defensive fault in the RCPT step ===== -/

/-- C7: entering `_sendrcpt` with a recipient collection that is `null`, a
string, or an empty list raises a thrown TypeError (the explicit
`throw new TypeError` for the first two, the runtime TypeError from reading
`.address` off `undefined` for the empty list) before any RCPT command is
issued; the thrown result carries no actions at all, so in particular the
Pending Send's callback is not completed with an SMTP failure. -/
theorem claim_C7 : ∀ (s : ClientState) (stack : MessageStack),
    (stack.«to» = RecipField.jsNull →
      _sendrcpt s stack = Except.error (JsError.typeError "stack.to must be array")) ∧
    (∀ str, stack.«to» = RecipField.jsStr str →
      _sendrcpt s stack = Except.error (JsError.typeError "stack.to must be array")) ∧
    (stack.«to» = RecipField.jsList [] →
      _sendrcpt s stack =
        Except.error (JsError.typeError "Cannot read properties of undefined")) ∧
    ((stack.«to» = RecipField.jsNull ∨ (∃ str, stack.«to» = RecipField.jsStr str) ∨
        stack.«to» = RecipField.jsList []) →
      ∀ out, _sendrcpt s stack ≠ Except.ok out) := by
  intro s stack
  refine ⟨?_, ?_, ?_, ?_⟩
  · intro h; simp [_sendrcpt, h]
  · intro str h; simp [_sendrcpt, h]
  · intro h; simp [_sendrcpt, h]
  · rintro (h | ⟨str, h⟩ | h) out <;> simp [_sendrcpt, h]

def c7stack : MessageStack :=
  { msgId := 3, «from» := "a@x.com", «to» := RecipField.jsNull, returnPath := none }

theorem claim_C7_witness :
    _sendrcpt initState c7stack =
      Except.error (JsError.typeError "stack.to must be array") ∧
    _sendrcpt initState { c7stack with «to» := RecipField.jsList [] } =
      Except.error (JsError.typeError "Cannot read properties of undefined") := by
  exact ⟨(claim_C7 initState c7stack).1 rfl,
         (claim_C7 initState { c7stack with «to» := RecipField.jsList [] }).2.2.1 rfl⟩

/- ===== Claim C10: empty `from` parse throws inside the valid continuation ===== -/

/-- C10: when a message passes validation but the parse of its `from` header
is empty, the enqueue path reads `.address` off `addressparser(...)[0]`, i.e.
off `undefined`, and throws; the thrown result shows the completion callback
is never invoked and nothing is appended to the queue. -/
theorem claim_C10 : ∀ (parse : Option String → List ParsedAddress) (msgId : Nat)
    (s : ClientState) (h : MessageHeaders) (why : String),
    parse h.«from» = [] →
    onValid parse msgId s h true why =
      Except.error (JsError.typeError "Cannot read properties of undefined") := by
  intro parse msgId s h why hp
  simp [onValid, buildStack, hp]

/-- An addressparser stand-in that parses every header to no addresses. -/
def parseEmpty : Option String → List ParsedAddress := fun _ => []

theorem claim_C10_witness :
    onValid parseEmpty 0 initState c6msg true "" =
      Except.error (JsError.typeError "Cannot read properties of undefined") := by
  exact claim_C10 parseEmpty 0 initState c6msg "" rfl

/- ===== Claim C2: the generic step wrapper ===== -/

/-- C2: every envelope step (MAIL, RCPT, DATA, end-of-data) dispatches its
completion signal through the same `_sendsmtp` wrapper with its
caller-supplied next step; the wrapper runs the next step on the same stack on
success, and on failure issues exactly one `rset` whose completion — whatever
its own outcome `r` — completes the send via `_senddone` with the original
step error, which clears the in-flight flag and emits the stack's callback
with that error ahead of whatever the re-invoked poll does. -/
theorem claim_C2 :
    (∀ (s : ClientState) (stack : MessageStack) (err : Option Err),
      s.phase = Phase.awaitingMail stack →
        step s (Event.mailResult err) = _sendsmtp nextAfterMail s stack err) ∧
    (∀ (s : ClientState) (stack : MessageStack) (err : Option Err),
      s.phase = Phase.awaitingRcpt stack →
        step s (Event.rcptResult err) = _sendsmtp nextAfterRcpt s stack err) ∧
    (∀ (s : ClientState) (stack : MessageStack) (err : Option Err),
      s.phase = Phase.awaitingData stack →
        step s (Event.dataResult err) = _sendsmtp nextAfterData s stack err) ∧
    (∀ (s : ClientState) (stack : MessageStack) (err : Option Err),
      s.phase = Phase.awaitingDataEnd stack →
        step s (Event.dataEndResult err) = _sendsmtp nextAfterDataEnd s stack err) ∧
    (∀ (next : ClientState → MessageStack → Except JsError (ClientState × List Action))
       (s : ClientState) (stack : MessageStack),
      _sendsmtp next s stack none = next s stack) ∧
    (∀ (next : ClientState → MessageStack → Except JsError (ClientState × List Action))
       (s : ClientState) (stack : MessageStack) (e : Err),
      _sendsmtp next s stack (some e) =
        Except.ok ({ s with phase := Phase.awaitingRset e stack }, [Action.cmd Cmd.rset])) ∧
    (∀ (s : ClientState) (e : Err) (stack : MessageStack) (r : Option Err),
      s.phase = Phase.awaitingRset e stack →
        step s (Event.rsetResult r) = Except.ok (_senddone (some e) s stack)) ∧
    (∀ (err : Option Err) (s : ClientState) (stack : MessageStack),
      (_senddone err s stack).2 =
        Action.cb stack.msgId err ::
          (_poll { s with sending := false, phase := Phase.idle }).2 ∧
      (_senddone err s stack).1 =
        (_poll { s with sending := false, phase := Phase.idle }).1) := by
  refine ⟨?_, ?_, ?_, ?_, ?_, ?_, ?_, ?_⟩
  · intro s stack err h; simp [step, h]
  · intro s stack err h; simp [step, h]
  · intro s stack err h; simp [step, h]
  · intro s stack err h; simp [step, h]
  · intro next s stack; rfl
  · intro next s stack e; rfl
  · intro s e stack r h; simp [step, h]
  · intro err s stack; exact ⟨rfl, rfl⟩

def c2stack : MessageStack :=
  { msgId := 1, «from» := "a@x.com", «to» := RecipField.jsList [⟨"b@y.com"⟩],
    returnPath := none }

def c2s : ClientState :=
  { queue := [], sending := true, ready := true, timer := false,
    smtpState := SMTPState.CONNECTED, authorized := false,
    phase := Phase.awaitingMail c2stack }

theorem claim_C2_witness :
    step c2s (Event.mailResult (some "550 rejected")) =
      _sendsmtp nextAfterMail c2s c2stack (some "550 rejected") ∧
    _sendsmtp nextAfterMail c2s c2stack (some "550 rejected") =
      Except.ok ({ c2s with phase := Phase.awaitingRset "550 rejected" c2stack },
                 [Action.cmd Cmd.rset]) ∧
    step { c2s with phase := Phase.awaitingRset "550 rejected" c2stack }
        (Event.rsetResult none) =
      Except.ok (_senddone (some "550 rejected")
        { c2s with phase := Phase.awaitingRset "550 rejected" c2stack } c2stack) := by
  refine ⟨claim_C2.1 c2s c2stack (some "550 rejected") rfl,
          claim_C2.2.2.2.2.2.1 nextAfterMail c2s c2stack "550 rejected",
          claim_C2.2.2.2.2.2.2.1 _ "550 rejected" c2stack none rfl⟩

/- ===== Claim C3: connect-sequence failure isolates the head element ===== -/

/-- `_poll` emits only transport commands, never a completion callback. -/
theorem pollEmitsOnlyCmds : ∀ (s : ClientState), ∀ a ∈ (_poll s).2, ∃ c, a = Action.cmd c := by
  intro s a ha
  unfold _poll at ha
  rcases hq : s.queue with _ | ⟨st, rest⟩ <;> simp [hq] at ha
  · split_ifs at ha <;> simp at ha
  · split_ifs at ha <;> simp [_connect, _sendmail] at ha <;> simp [ha]

/-- When the transport is not connected or the ready flag is down, `_poll`
never dequeues: the queue is preserved verbatim. -/
theorem pollPreservesQueue : ∀ s : ClientState,
    s.smtpState = SMTPState.NOTCONNECTED ∨ s.ready = false →
    (_poll s).1.queue = s.queue := by
  intro s hs
  unfold _poll
  rcases hq : s.queue with _ | ⟨st, rest⟩ <;> simp [hq]
  · split_ifs <;> simp
  · split_ifs with h1 h2
    · simp [_connect, hq]
    · rcases hs with hs | hs
      · exact absurd hs h1
      · rw [hs] at h2
        simp at h2
    · simp [hq]

/-- C3: when the connect sequence started for the head Pending Send fails —
at the connect step itself or at the login/greeting continuation — exactly the
head element is removed (the new queue is the old tail, so no other element is
removed or reordered), its callback is invoked with the error, and `_poll` is
re-invoked, whose emissions complete no other element (they are transport
commands only).  When the continuation succeeds, the ready flag is set and
`_poll` is re-invoked on a state whose queue is untouched. -/
theorem claim_C3 :
    (∀ (s : ClientState) (stack : MessageStack) (rest : List MessageStack) (e : Err),
      s.phase = Phase.connecting stack → s.queue = stack :: rest →
      ∃ s2 pollActs,
        step s (Event.connectResult (some e)) =
          Except.ok (s2, Action.cb stack.msgId (some e) :: pollActs) ∧
        s2.queue = rest ∧
        (∀ a ∈ pollActs, ∃ c, a = Action.cmd c)) ∧
    (∀ (s : ClientState) (stack : MessageStack) (rest : List MessageStack) (e : Err),
      s.phase = Phase.authing stack → s.queue = stack :: rest → s.ready = false →
      ∃ s2 pollActs,
        step s (Event.authResult (some e)) =
          Except.ok (s2, Action.cb stack.msgId (some e) :: pollActs) ∧
        s2.queue = rest ∧
        (∀ a ∈ pollActs, ∃ c, a = Action.cmd c)) ∧
    (∀ (s : ClientState) (stack : MessageStack),
      s.phase = Phase.authing stack →
      step s (Event.authResult none) =
        Except.ok (_poll { s with ready := true, phase := Phase.idle }) ∧
      ({ s with ready := true, phase := Phase.idle } : ClientState).queue = s.queue ∧
      ({ s with ready := true, phase := Phase.idle } : ClientState).ready = true) := by
  refine ⟨?_, ?_, ?_⟩
  · intro s stack rest e hph hq
    set s1 : ClientState :=
      { s with smtpState := SMTPState.NOTCONNECTED, phase := Phase.idle,
               queue := s.queue.tail } with hs1
    refine ⟨(_poll s1).1, (_poll s1).2, ?_, ?_, ?_⟩
    · simp [step, hph, connectCb, hs1]
    · rw [pollPreservesQueue s1 (Or.inl rfl)]
      simp [hs1, hq]
    · intro a ha
      exact pollEmitsOnlyCmds s1 a ha
  · intro s stack rest e hph hq hr
    set s1 : ClientState :=
      { s with phase := Phase.idle, queue := s.queue.tail } with hs1
    refine ⟨(_poll s1).1, (_poll s1).2, ?_, ?_, ?_⟩
    · simp [step, hph, beginCb, hs1]
    · rw [pollPreservesQueue s1 (Or.inr ?_)]
      · simp [hs1, hq]
      · simp [hs1, hr]
    · intro a ha
      exact pollEmitsOnlyCmds s1 a ha
  · intro s stack hph
    refine ⟨?_, rfl, rfl⟩
    simp [step, hph, beginCb]

def c3stackB : MessageStack :=
  { msgId := 7, «from» := "b@x.com", «to» := RecipField.jsList [⟨"d@y.com"⟩],
    returnPath := none }

def c3s : ClientState :=
  { queue := [c1stack, c3stackB], sending := false, ready := false, timer := false,
    smtpState := SMTPState.CONNECTING, authorized := false,
    phase := Phase.connecting c1stack }

theorem claim_C3_witness :
    ∃ s2 pollActs,
      step c3s (Event.connectResult (some "ECONNREFUSED")) =
        Except.ok (s2, Action.cb c1stack.msgId (some "ECONNREFUSED") :: pollActs) ∧
      s2.queue = [c3stackB] ∧
      (∀ a ∈ pollActs, ∃ c, a = Action.cmd c) := by
  exact claim_C3.1 c3s c1stack [c3stackB] "ECONNREFUSED" rfl rfl

/- ===== Claim C5: stream failure escalates to a forced close ===== -/

/-- C5: when body-chunk production fails mid-stream, the client forcibly
closes the transport connection (a `close`, never a `rset`), clears the
in-flight flag, and invokes the current Pending Send's callback with the
stream error; because the connection is then down, the re-invoked poll begins
a fresh connect sequence for the next queued message (when one exists) instead
of reusing the connection — and with an empty queue the transport is simply
left NOTCONNECTED.  (The effect of `smtp.close()` on the transport state is
modelled from the spec.) -/
theorem claim_C5 :
    ∀ (s : ClientState) (stack : MessageStack) (e : Err),
      s.phase = Phase.streaming stack →
      ∃ s2 acts,
        step s (Event.streamError e) =
          Except.ok (s2, Action.cmd Cmd.close :: Action.cb stack.msgId (some e) :: acts) ∧
        s2.sending = false ∧
        Action.cmd Cmd.rset ∉ acts ∧
        (s.queue = [] → acts = [] ∧ s2.smtpState = SMTPState.NOTCONNECTED) ∧
        (∀ st2 rest2, s.queue = st2 :: rest2 →
          acts = [Action.cmd Cmd.connect] ∧ s2.phase = Phase.connecting st2 ∧
          s2.queue = s.queue) := by
  intro s stack e hph
  set s1 : ClientState :=
    { s with smtpState := SMTPState.NOTCONNECTED, sending := false,
             phase := Phase.idle } with hs1
  refine ⟨(_poll s1).1, (_poll s1).2, ?_, ?_, ?_, ?_, ?_⟩
  · simp [step, hph, _senddone, hs1]
  · rcases hq : s.queue with _ | ⟨st2, rest2⟩ <;>
      simp [_poll, hs1, hq, _connect]
  · rcases hq : s.queue with _ | ⟨st2, rest2⟩ <;>
      simp [_poll, hs1, hq, _connect]
  · intro hq
    simp [_poll, hs1, hq]
  · intro st2 rest2 hq
    simp [_poll, hs1, hq, _connect]

def c5s : ClientState :=
  { queue := [c3stackB], sending := true, ready := true, timer := false,
    smtpState := SMTPState.CONNECTED, authorized := false,
    phase := Phase.streaming c2stack }

theorem claim_C5_witness :
    ∃ s2 acts,
      step c5s (Event.streamError "EACCES: unreadable attachment") =
        Except.ok (s2, Action.cmd Cmd.close ::
          Action.cb c2stack.msgId (some "EACCES: unreadable attachment") :: acts) ∧
      s2.sending = false ∧
      Action.cmd Cmd.rset ∉ acts ∧
      (c5s.queue = [] → acts = [] ∧ s2.smtpState = SMTPState.NOTCONNECTED) ∧
      (∀ st2 rest2, c5s.queue = st2 :: rest2 →
        acts = [Action.cmd Cmd.connect] ∧ s2.phase = Phase.connecting st2 ∧
        s2.queue = c5s.queue) := by
  exact claim_C5 c5s c2stack "EACCES: unreadable attachment" rfl

/- ===== Claim C8: envelope-from selection for MAIL ===== -/

/-- An addressparser stand-in under which the `return-path` header parses to a
single record whose address is the empty string (as the real parser does for
the null return-path `<>`). -/
def parse8 : Option String → List ParsedAddress := fun h =>
  if h = some "f" then [⟨"a@x.com"⟩]
  else if h = some "rp" then [⟨""⟩]
  else if h = some "t" then [⟨"b@y.com"⟩]
  else []

def h8 : MessageHeaders :=
  { «from» := some "f", «to» := some "t", cc := none, bcc := none,
    returnPath := some "rp", text := some "x", attachment := AttachField.undef }

def stack8 : MessageStack :=
  { msgId := 0, «from» := "a@x.com", «to» := RecipField.jsList [⟨"b@y.com"⟩],
    returnPath := some "" }

/-- C8 counterexample: the `return-path` header is present and parses to a
non-empty address list whose first address is the empty string; the override
is duly recorded (`returnPath = some ""`), yet MAIL is issued with the sender
address `<a@x.com>`, not the recorded override `<>` — `stack.returnPath ||
stack.from` falls back to the sender because the empty string is falsy.  This
refutes the claim that the override is used whenever the header is present and
parses non-empty. -/
theorem claim_C8_counterexample :
    buildStack parse8 h8 0 = Except.ok stack8 ∧
    jsTruthy h8.returnPath = true ∧
    parse8 h8.returnPath = [⟨""⟩] ∧
    stack8.returnPath = some "" ∧
    (_sendmail initState stack8).2 = [Action.cmd (Cmd.mail "<a@x.com>")] ∧
    "<a@x.com>" ≠ "<" ++ "" ++ ">" := by
  refine ⟨rfl, rfl, rfl, rfl, rfl, by decide⟩

/-- C8 amended: when the envelope sequence begins for a Pending Send built by
the validator, the MAIL envelope-from argument is the recorded return-path
override whenever the `return-path` header was truthy, parsed to a non-empty
address list, and that list's first address is itself a non-empty string;
otherwise — no override recorded, or the recorded override is the empty
string — it is the sender address parsed from `from`; in both cases wrapped
as `<address>`. -/
theorem claim_C8 :
    ∀ (parse : Option String → List ParsedAddress) (h : MessageHeaders)
      (msgId : Nat) (s : ClientState) (stack : MessageStack) (f : ParsedAddress)
      (fs : List ParsedAddress),
    buildStack parse h msgId = Except.ok stack →
    parse h.«from» = f :: fs →
    (∀ r rs, jsTruthy h.returnPath = true → parse h.returnPath = r :: rs →
      r.address ≠ "" →
      (_sendmail s stack).2 = [Action.cmd (Cmd.mail ("<" ++ r.address ++ ">"))]) ∧
    (∀ r rs, jsTruthy h.returnPath = true → parse h.returnPath = r :: rs →
      r.address = "" →
      (_sendmail s stack).2 = [Action.cmd (Cmd.mail ("<" ++ f.address ++ ">"))]) ∧
    ((jsTruthy h.returnPath = false ∨ parse h.returnPath = []) →
      (_sendmail s stack).2 = [Action.cmd (Cmd.mail ("<" ++ f.address ++ ">"))]) := by
  intro parse h msgId s stack f fs hb hf
  simp only [buildStack, hf, Except.ok.injEq] at hb
  subst hb
  refine ⟨?_, ?_, ?_⟩
  · intro r rs htr hrp hne
    simp [_sendmail, htr, hrp, hne]
  · intro r rs htr hrp he
    simp [_sendmail, htr, hrp, he]
  · intro hcase
    rcases hcase with hc | hc <;> simp [_sendmail, hc]

theorem claim_C8_witness :
    (_sendmail initState stack8).2 =
      [Action.cmd (Cmd.mail ("<" ++ "a@x.com" ++ ">"))] := by
  exact (claim_C8 parse8 h8 0 initState stack8 ⟨"a@x.com"⟩ [] rfl rfl).2.1
    ⟨""⟩ [] rfl rfl rfl

/- ===== Claim C4: recipient list construction and RCPT order ===== -/

/-- JavaScript truthiness folds the conditional concatenation of `_canMakeMessage`
headers into a plain concatenation once the parser maps absent and empty
headers to the empty list (spec section 6 requires exactly that). -/
theorem concatIfTruthy (parse : Option String → List ParsedAddress)
    (o : Option String) (l : List ParsedAddress)
    (h0 : parse none = []) (h1 : parse (some "") = []) :
    (if jsTruthy o then l ++ parse o else l) = l ++ parse o := by
  rcases o with _ | s
  · simp [jsTruthy, h0]
  · by_cases hs : s = ""
    · subst hs; simp [jsTruthy, h1]
    · simp [jsTruthy, hs]

/-- One unfolding of `run`: a successful first step followed by a successful
rest concatenates their actions. -/
theorem run_cons (s : ClientState) (e : Event) (es : List Event) (s1 : ClientState)
    (a1 : List Action) (h : step s e = Except.ok (s1, a1)) (s2 : ClientState)
    (a2 : List Action) (h2 : run s1 es = Except.ok (s2, a2)) :
    run s (e :: es) = Except.ok (s2, a1 ++ a2) := by
  simp [run, h, h2]

/-- Driving the RCPT loop with successful completions issues one RCPT command
per remaining recipient, in list order, each wrapped as an angle-bracketed
address, and then issues DATA. -/
theorem rcptRun : ∀ (l : List ParsedAddress) (s : ClientState) (stack : MessageStack),
    s.phase = Phase.awaitingRcpt stack → stack.«to» = RecipField.jsList l →
    ∃ s2, run s (List.replicate (l.length + 1) (Event.rcptResult none)) =
      Except.ok (s2, (l.map fun a => Action.cmd (Cmd.rcpt ("<" ++ a.address ++ ">")))
        ++ [Action.cmd Cmd.data]) ∧
      s2.phase = Phase.awaitingData { stack with «to» := RecipField.jsList [] } := by
  intro l
  induction l with
  | nil =>
    intro s stack hph hto
    obtain ⟨mid, fr, toF, rp⟩ := stack
    simp only at hto
    subst hto
    refine ⟨{ s with phase := Phase.awaitingData ⟨mid, fr, RecipField.jsList [], rp⟩ }, ?_, rfl⟩
    simp [run, step, hph, _sendsmtp, nextAfterRcpt, _senddata]
  | cons a rest ih =>
    intro s stack hph hto
    obtain ⟨mid, fr, toF, rp⟩ := stack
    simp only at hto
    subst hto
    have hstep : step s (Event.rcptResult none) =
        Except.ok ({ s with phase :=
            Phase.awaitingRcpt ⟨mid, fr, RecipField.jsList rest, rp⟩ },
          [Action.cmd (Cmd.rcpt ("<" ++ a.address ++ ">"))]) := by
      simp [step, hph, _sendsmtp, nextAfterRcpt, _sendrcpt]
    obtain ⟨s2, hrun, hph2⟩ := ih
      { s with phase := Phase.awaitingRcpt ⟨mid, fr, RecipField.jsList rest, rp⟩ }
      ⟨mid, fr, RecipField.jsList rest, rp⟩ rfl rfl
    refine ⟨s2, ?_, ?_⟩
    · rw [List.length_cons, List.replicate_succ]
      rw [run_cons _ _ _ _ _ hstep _ _ hrun]
      simp
    · exact hph2

/-- C4: for every accepted message, the Pending Send's recipient list is the
parse of `to`, then of `cc`, then of `bcc`, concatenated in that order with
duplicates preserved (given a parser that maps absent and empty headers to no
addresses, as the spec requires of it); and once the envelope sequence is in
flight for such a stack, successful step completions make the sequencer issue
exactly one RCPT command per entry of that list, in exactly that order, each
wrapped as an angle-bracketed address, before issuing DATA. -/
theorem claim_C4 :
    ∀ (parse : Option String → List ParsedAddress) (h : MessageHeaders) (msgId : Nat)
      (s : ClientState) (stack : MessageStack),
    parse none = [] → parse (some "") = [] →
    buildStack parse h msgId = Except.ok stack →
    stack.«to» = RecipField.jsList (parse h.«to» ++ parse h.cc ++ parse h.bcc) ∧
    (∀ a rest, parse h.«to» ++ parse h.cc ++ parse h.bcc = a :: rest →
      s.phase = Phase.awaitingMail stack →
      ∃ s2, run s (Event.mailResult none ::
          List.replicate (a :: rest).length (Event.rcptResult none)) =
        Except.ok (s2, ((a :: rest).map fun x =>
            Action.cmd (Cmd.rcpt ("<" ++ x.address ++ ">"))) ++ [Action.cmd Cmd.data])) := by
  intro parse h msgId s stack h0 h1 hb
  rcases hf : parse h.«from» with _ | ⟨f, fs⟩
  · rw [buildStack] at hb
    rw [hf] at hb
    simp at hb
  have hto : stack.«to» = RecipField.jsList (parse h.«to» ++ parse h.cc ++ parse h.bcc) := by
    simp only [buildStack, hf, Except.ok.injEq] at hb
    subst hb
    simp only
    rw [concatIfTruthy parse h.bcc _ h0 h1, concatIfTruthy parse h.cc _ h0 h1]
  refine ⟨hto, ?_⟩
  intro a rest hl hph
  rw [hl] at hto
  have hstep : step s (Event.mailResult none) =
      Except.ok ({ s with phase :=
          Phase.awaitingRcpt { stack with «to» := RecipField.jsList rest } },
        [Action.cmd (Cmd.rcpt ("<" ++ a.address ++ ">"))]) := by
    simp [step, hph, _sendsmtp, nextAfterMail, _sendrcpt, hto]
  obtain ⟨s2, hrun, hph2⟩ := rcptRun rest
    { s with phase := Phase.awaitingRcpt { stack with «to» := RecipField.jsList rest } }
    { stack with «to» := RecipField.jsList rest } rfl rfl
  refine ⟨s2, ?_⟩
  rw [List.length_cons]
  rw [run_cons _ _ _ _ _ hstep _ _ hrun]
  simp

/-- An addressparser stand-in with a duplicate address across `to` and `cc`. -/
def parse4 : Option String → List ParsedAddress := fun o =>
  if o = some "f4" then [⟨"sender@x.com"⟩]
  else if o = some "t4" then [⟨"b@y.com"⟩, ⟨"dup@y.com"⟩]
  else if o = some "c4" then [⟨"dup@y.com"⟩]
  else []

def h4 : MessageHeaders :=
  { «from» := some "f4", «to» := some "t4", cc := some "c4", bcc := none,
    returnPath := none, text := some "x", attachment := AttachField.undef }

def stack4 : MessageStack :=
  { msgId := 4, «from» := "sender@x.com",
    «to» := RecipField.jsList [⟨"b@y.com"⟩, ⟨"dup@y.com"⟩, ⟨"dup@y.com"⟩],
    returnPath := none }

def c4s : ClientState :=
  { queue := [], sending := true, ready := true, timer := false,
    smtpState := SMTPState.CONNECTED, authorized := false,
    phase := Phase.awaitingMail stack4 }

theorem claim_C4_witness :
    stack4.«to» = RecipField.jsList (parse4 h4.«to» ++ parse4 h4.cc ++ parse4 h4.bcc) ∧
    ∃ s2, run c4s (Event.mailResult none ::
        List.replicate 3 (Event.rcptResult none)) =
      Except.ok (s2, [Action.cmd (Cmd.rcpt "<b@y.com>"),
        Action.cmd (Cmd.rcpt "<dup@y.com>"), Action.cmd (Cmd.rcpt "<dup@y.com>"),
        Action.cmd Cmd.data]) := by
  have h := claim_C4 parse4 h4 4 c4s stack4 rfl rfl rfl
  refine ⟨h.1, ?_⟩
  obtain ⟨s2, hr⟩ := h.2 ⟨"b@y.com"⟩ [⟨"dup@y.com"⟩, ⟨"dup@y.com"⟩] rfl rfl
  exact ⟨s2, by simpa using hr⟩

/- ===== Claim C9: the sending flag tracks envelope-run activity ===== -/

/-- Whether the pending continuation belongs to an Envelope Sequencer run
(MAIL through end-of-data, including the failure-path rset whose completion
ends the run). -/
def envActive : Phase → Bool
  | Phase.awaitingMail _ => true
  | Phase.awaitingRcpt _ => true
  | Phase.awaitingData _ => true
  | Phase.streaming _ => true
  | Phase.awaitingDataEnd _ => true
  | Phase.awaitingRset _ _ => true
  | _ => false

/-- The inductive invariant behind single-flight: the sending flag mirrors
envelope-run activity, and the connect/auth/envelope phases pin down the
transport state, ready flag, timer and queue facts that keep it so. -/
def Inv (s : ClientState) : Prop :=
  s.sending = envActive s.phase ∧
  (∀ st, s.phase = Phase.connecting st →
    s.smtpState = SMTPState.CONNECTING ∧ s.ready = false ∧ s.timer = false ∧
    s.queue ≠ []) ∧
  (∀ st, s.phase = Phase.authing st →
    s.smtpState = SMTPState.CONNECTED ∧ s.ready = false ∧ s.timer = false ∧
    s.queue ≠ []) ∧
  (envActive s.phase = true → s.smtpState = SMTPState.CONNECTED ∧ s.timer = false)

/-- Branch equation: non-empty queue, transport not connected. -/
theorem poll_eq_connect (s : ClientState) (st0 : MessageStack) (rest : List MessageStack)
    (hq : s.queue = st0 :: rest) (h1 : s.smtpState = SMTPState.NOTCONNECTED) :
    _poll s = _connect { s with timer := false } st0 := by
  unfold _poll
  simp only [hq]
  rw [if_pos h1]

/-- Branch equation: non-empty queue, transport connected and ready, no send
in flight — dequeue and begin the envelope. -/
theorem poll_eq_send (s : ClientState) (st0 : MessageStack) (rest : List MessageStack)
    (hq : s.queue = st0 :: rest) (h2 : s.smtpState = SMTPState.CONNECTED)
    (h3 : s.sending = false) (h4 : s.ready = true) :
    _poll s = _sendmail { s with timer := false, queue := rest } st0 := by
  unfold _poll
  simp only [hq]
  rw [if_neg (by rw [h2]; intro h; cases h), if_pos ⟨h2, h3, h4⟩]

/-- Branch equation: non-empty queue but a connect or send is in progress. -/
theorem poll_eq_noop (s : ClientState) (st0 : MessageStack) (rest : List MessageStack)
    (hq : s.queue = st0 :: rest) (h1 : s.smtpState ≠ SMTPState.NOTCONNECTED)
    (h2 : ¬(s.smtpState = SMTPState.CONNECTED ∧ s.sending = false ∧ s.ready = true)) :
    _poll s = ({ s with timer := false }, []) := by
  unfold _poll
  simp only [hq]
  rw [if_neg h1, if_neg h2]

/-- Branch equation: empty queue, connected — arm the idle timer. -/
theorem poll_eq_arm (s : ClientState) (hq : s.queue = [])
    (h : s.smtpState = SMTPState.CONNECTED) :
    _poll s = ({ s with timer := true }, []) := by
  unfold _poll
  simp only [hq]
  rw [if_pos h]

/-- Branch equation: empty queue, not connected — nothing to do. -/
theorem poll_eq_empty_noop (s : ClientState) (hq : s.queue = [])
    (h : s.smtpState ≠ SMTPState.CONNECTED) :
    _poll s = ({ s with timer := false }, []) := by
  unfold _poll
  simp only [hq]
  rw [if_neg h]

/-- A state whose pending continuation is idle and whose in-flight flag is
down satisfies the invariant outright. -/
theorem invIdleState (s : ClientState) (hph : s.phase = Phase.idle)
    (hsnd : s.sending = false) : Inv s := by
  refine ⟨by rw [hsnd, hph]; rfl, ?_, ?_, ?_⟩
  · intro st hc
    rw [hph] at hc
    cases hc
  · intro st hc
    rw [hph] at hc
    cases hc
  · intro hc
    rw [hph] at hc
    cases hc

/-- Clearing the timer preserves the invariant. -/
theorem invTimerClear (s : ClientState) (hInv : Inv s) :
    Inv { s with timer := false } := by
  obtain ⟨hSend, hConn, hAuth, hEnv⟩ := hInv
  refine ⟨hSend, ?_, ?_, ?_⟩
  · intro st hc
    obtain ⟨a, b, _, d⟩ := hConn st hc
    exact ⟨a, b, rfl, d⟩
  · intro st hc
    obtain ⟨a, b, _, d⟩ := hAuth st hc
    exact ⟨a, b, rfl, d⟩
  · intro hc
    exact ⟨(hEnv hc).1, rfl⟩

/-- Extending the queue preserves the invariant. -/
theorem invPush (s : ClientState) (stack : MessageStack) (hInv : Inv s) :
    Inv { s with queue := s.queue ++ [stack] } := by
  obtain ⟨hSend, hConn, hAuth, hEnv⟩ := hInv
  refine ⟨hSend, ?_, ?_, hEnv⟩
  · intro st hc
    obtain ⟨a, b, c, _⟩ := hConn st hc
    exact ⟨a, b, c, by simp⟩
  · intro st hc
    obtain ⟨a, b, c, _⟩ := hAuth st hc
    exact ⟨a, b, c, by simp⟩

/-- `_poll` re-establishes the invariant whenever it is entered with no
pending continuation and the in-flight flag down — the situation at every
`this._poll()` call site inside a completion handler. -/
theorem pollInvIdle (s : ClientState) (hph : s.phase = Phase.idle)
    (hsnd : s.sending = false) : Inv (_poll s).1 := by
  rcases hq : s.queue with _ | ⟨st0, rest⟩
  · by_cases hc : s.smtpState = SMTPState.CONNECTED
    · rw [poll_eq_arm s hq hc]
      exact invIdleState _ hph hsnd
    · rw [poll_eq_empty_noop s hq hc]
      exact invIdleState _ hph hsnd
  · by_cases h1 : s.smtpState = SMTPState.NOTCONNECTED
    · rw [poll_eq_connect s st0 rest hq h1]
      unfold _connect
      refine ⟨by rw [hsnd]; rfl, ?_, ?_, ?_⟩
      · intro st hc
        simp only at hc
        obtain rfl : st0 = st := by cases hc; rfl
        exact ⟨rfl, rfl, rfl, by simp [hq]⟩
      · intro st hc
        simp only at hc
        cases hc
      · intro hc
        cases hc
    · by_cases h2 : s.smtpState = SMTPState.CONNECTED ∧ s.sending = false ∧ s.ready = true
      · rw [poll_eq_send s st0 rest hq h2.1 h2.2.1 h2.2.2]
        unfold _sendmail
        refine ⟨rfl, ?_, ?_, ?_⟩
        · intro st hc
          simp only at hc
          cases hc
        · intro st hc
          simp only at hc
          cases hc
        · intro _
          exact ⟨h2.1, rfl⟩
      · rw [poll_eq_noop s st0 rest hq h1 h2]
        exact invIdleState _ hph hsnd

/-- `_poll` preserves the invariant whenever the queue is non-empty — the
situation after every enqueue. -/
theorem pollInvNonempty (s : ClientState) (hInv : Inv s) (hne : s.queue ≠ []) :
    Inv (_poll s).1 := by
  obtain ⟨hSend, hConn, hAuth, hEnv⟩ := hInv
  rcases hq : s.queue with _ | ⟨st0, rest⟩
  · exact absurd hq hne
  rcases hph : s.phase with _ | st | st | st | st | st | st | st | ⟨er, st⟩
  · exact pollInvIdle s hph (by rw [hSend, hph]; rfl)
  · obtain ⟨hCing, hRd, hTm, hQ⟩ := hConn st hph
    rw [poll_eq_noop s st0 rest hq (by rw [hCing]; intro h; cases h)
      (by rw [hCing]; intro h; cases h.1)]
    exact invTimerClear s ⟨hSend, hConn, hAuth, hEnv⟩
  · obtain ⟨hCed, hRd, hTm, hQ⟩ := hAuth st hph
    rw [poll_eq_noop s st0 rest hq (by rw [hCed]; intro h; cases h)
      (fun h => by rw [hRd] at h; cases h.2.2)]
    exact invTimerClear s ⟨hSend, hConn, hAuth, hEnv⟩
  all_goals {
    have hAct : envActive s.phase = true := by rw [hph]; rfl
    obtain ⟨hCed, hTm⟩ := hEnv hAct
    have hSnd : s.sending = true := by rw [hSend, hAct]
    rw [poll_eq_noop s st0 rest hq (by rw [hCed]; intro h; cases h)
      (fun h => by rw [hSnd] at h; cases h.2.1)]
    exact invTimerClear s ⟨hSend, hConn, hAuth, hEnv⟩
  }

/-- Moving to another envelope phase preserves the invariant. -/
theorem invEnvPhase (s : ClientState) (p : Phase)
    (hSend : s.sending = envActive s.phase) (hAct : envActive s.phase = true)
    (hEnv : envActive s.phase = true → s.smtpState = SMTPState.CONNECTED ∧ s.timer = false)
    (hp : envActive p = true) : Inv { s with phase := p } := by
  obtain ⟨hCed, hTm⟩ := hEnv hAct
  refine ⟨?_, ?_, ?_, ?_⟩
  · show s.sending = envActive p
    rw [hSend, hAct, hp]
  · intro st1 hc
    simp only at hc
    subst hc
    simp [envActive] at hp
  · intro st1 hc
    simp only at hc
    subst hc
    simp [envActive] at hp
  · intro _
    exact ⟨hCed, hTm⟩

/-- Every successful step of the machine preserves the invariant. -/
theorem stepInv (s : ClientState) (e : Event) (s' : ClientState) (acts : List Action)
    (hInv : Inv s) (hstep : step s e = Except.ok (s', acts)) : Inv s' := by
  obtain ⟨hSend, hConn, hAuth, hEnv⟩ := hInv
  cases e with
  | submit stack =>
    simp only [step, Except.ok.injEq] at hstep
    have h := pollInvNonempty { s with queue := s.queue ++ [stack] }
      (invPush s stack ⟨hSend, hConn, hAuth, hEnv⟩) (by simp)
    rw [hstep] at h
    exact h
  | connectResult err =>
    rcases hph : s.phase with _ | st | st | st | st | st | st | st | ⟨er, st⟩ <;>
      simp only [step, hph, Except.ok.injEq, Prod.mk.injEq] at hstep
    case connecting =>
      obtain ⟨hCing, hRd, hTm, hQ⟩ := hConn st hph
      rcases err with _ | e
      · simp only [connectCb, Prod.mk.injEq] at hstep
        obtain ⟨rfl, -⟩ := hstep
        have hs0 : s.sending = false := by rw [hSend, hph]; rfl
        refine ⟨?_, ?_, ?_, ?_⟩
        · show s.sending = envActive (Phase.authing st)
          rw [hs0]; rfl
        · intro st1 hc
          simp only at hc
          cases hc
        · intro st1 hc
          simp only at hc
          cases hc
          exact ⟨rfl, hRd, hTm, hQ⟩
        · intro hc
          simp [envActive] at hc
      · simp only [connectCb, Prod.mk.injEq] at hstep
        obtain ⟨rfl, -⟩ := hstep
        exact pollInvIdle _ rfl (by rw [hSend, hph]; rfl)
    all_goals
      obtain ⟨rfl, -⟩ := hstep
    all_goals exact ⟨hSend, hConn, hAuth, hEnv⟩
  | authResult err =>
    rcases hph : s.phase with _ | st | st | st | st | st | st | st | ⟨er, st⟩ <;>
      simp only [step, hph, Except.ok.injEq, Prod.mk.injEq] at hstep
    case authing =>
      rcases err with _ | e
      · simp only [beginCb] at hstep
        obtain rfl : (_poll { s with ready := true, phase := Phase.idle }).1 = s' := by
          rw [hstep]
        exact pollInvIdle _ rfl (by rw [hSend, hph]; rfl)
      · simp only [beginCb, Prod.mk.injEq] at hstep
        obtain ⟨rfl, -⟩ := hstep
        exact pollInvIdle _ rfl (by rw [hSend, hph]; rfl)
    all_goals
      obtain ⟨rfl, -⟩ := hstep
    all_goals exact ⟨hSend, hConn, hAuth, hEnv⟩
  | mailResult err =>
    rcases hph : s.phase with _ | st | st | st | st | st | st | st | ⟨er, st⟩ <;>
      simp only [step, hph, Except.ok.injEq, Prod.mk.injEq] at hstep
    case awaitingMail =>
      rcases err with _ | e
      · rcases hto : st.«to» with _ | str | ⟨_ | ⟨a, l⟩⟩ <;>
          simp only [_sendsmtp, nextAfterMail, _sendrcpt, hto, Except.ok.injEq,
            Prod.mk.injEq] at hstep
        · cases hstep
        · cases hstep
        · cases hstep
        · obtain ⟨rfl, -⟩ := hstep
          refine invEnvPhase s _ hSend (by rw [hph]; rfl) hEnv ?_
          rfl
      · simp only [_sendsmtp, Except.ok.injEq, Prod.mk.injEq] at hstep
        obtain ⟨rfl, -⟩ := hstep
        refine invEnvPhase s _ hSend (by rw [hph]; rfl) hEnv ?_
        rfl
    all_goals
      obtain ⟨rfl, -⟩ := hstep
    all_goals exact ⟨hSend, hConn, hAuth, hEnv⟩
  | rcptResult err =>
    rcases hph : s.phase with _ | st | st | st | st | st | st | st | ⟨er, st⟩ <;>
      simp only [step, hph, Except.ok.injEq, Prod.mk.injEq] at hstep
    case awaitingRcpt =>
      rcases err with _ | e
      · rcases hto : st.«to» with _ | str | ⟨_ | ⟨a, l⟩⟩ <;>
          simp only [_sendsmtp, nextAfterRcpt, _sendrcpt, _senddata, hto,
            Except.ok.injEq, Prod.mk.injEq] at hstep
        · cases hstep
        · cases hstep
        · obtain ⟨rfl, -⟩ := hstep
          refine invEnvPhase s _ hSend (by rw [hph]; rfl) hEnv ?_
          rfl
        · obtain ⟨rfl, -⟩ := hstep
          refine invEnvPhase s _ hSend (by rw [hph]; rfl) hEnv ?_
          rfl
      · simp only [_sendsmtp, Except.ok.injEq, Prod.mk.injEq] at hstep
        obtain ⟨rfl, -⟩ := hstep
        refine invEnvPhase s _ hSend (by rw [hph]; rfl) hEnv ?_
        rfl
    all_goals
      obtain ⟨rfl, -⟩ := hstep
    all_goals exact ⟨hSend, hConn, hAuth, hEnv⟩
  | dataResult err =>
    rcases hph : s.phase with _ | st | st | st | st | st | st | st | ⟨er, st⟩ <;>
      simp only [step, hph, Except.ok.injEq, Prod.mk.injEq] at hstep
    case awaitingData =>
      rcases err with _ | e <;>
        simp only [_sendsmtp, nextAfterData, _sendmessage, Except.ok.injEq,
          Prod.mk.injEq] at hstep <;>
        obtain ⟨rfl, -⟩ := hstep <;>
        (refine invEnvPhase s _ hSend (by rw [hph]; rfl) hEnv ?_; rfl)
    all_goals
      obtain ⟨rfl, -⟩ := hstep
    all_goals exact ⟨hSend, hConn, hAuth, hEnv⟩
  | streamChunk c =>
    rcases hph : s.phase with _ | st | st | st | st | st | st | st | ⟨er, st⟩ <;>
      simp only [step, hph, Except.ok.injEq, Prod.mk.injEq] at hstep <;>
      obtain ⟨rfl, -⟩ := hstep <;>
      exact ⟨hSend, hConn, hAuth, hEnv⟩
  | streamEnd =>
    rcases hph : s.phase with _ | st | st | st | st | st | st | st | ⟨er, st⟩ <;>
      simp only [step, hph, Except.ok.injEq, Prod.mk.injEq] at hstep
    case streaming =>
      obtain ⟨rfl, -⟩ := hstep
      refine invEnvPhase s _ hSend (by rw [hph]; rfl) hEnv ?_
      rfl
    all_goals
      obtain ⟨rfl, -⟩ := hstep
    all_goals exact ⟨hSend, hConn, hAuth, hEnv⟩
  | streamError e =>
    rcases hph : s.phase with _ | st | st | st | st | st | st | st | ⟨er, st⟩ <;>
      simp only [step, hph, _senddone, Except.ok.injEq, Prod.mk.injEq] at hstep
    case streaming =>
      obtain ⟨rfl, -⟩ := hstep
      exact pollInvIdle _ rfl rfl
    all_goals
      obtain ⟨rfl, -⟩ := hstep
    all_goals exact ⟨hSend, hConn, hAuth, hEnv⟩
  | dataEndResult err =>
    rcases hph : s.phase with _ | st | st | st | st | st | st | st | ⟨er, st⟩ <;>
      simp only [step, hph, Except.ok.injEq, Prod.mk.injEq] at hstep
    case awaitingDataEnd =>
      rcases err with _ | e
      · simp only [_sendsmtp, nextAfterDataEnd, _senddone, Except.ok.injEq,
          Prod.mk.injEq] at hstep
        obtain ⟨rfl, -⟩ := hstep
        exact pollInvIdle _ rfl rfl
      · simp only [_sendsmtp, Except.ok.injEq, Prod.mk.injEq] at hstep
        obtain ⟨rfl, -⟩ := hstep
        refine invEnvPhase s _ hSend (by rw [hph]; rfl) hEnv ?_
        rfl
    all_goals
      obtain ⟨rfl, -⟩ := hstep
    all_goals exact ⟨hSend, hConn, hAuth, hEnv⟩
  | rsetResult r =>
    rcases hph : s.phase with _ | st | st | st | st | st | st | st | ⟨er, st⟩ <;>
      simp only [step, hph, _senddone, Except.ok.injEq, Prod.mk.injEq] at hstep
    case awaitingRset =>
      obtain ⟨rfl, -⟩ := hstep
      exact pollInvIdle _ rfl rfl
    all_goals
      obtain ⟨rfl, -⟩ := hstep
    all_goals exact ⟨hSend, hConn, hAuth, hEnv⟩
  | timerFire =>
    by_cases ht : s.timer = true <;>
      simp only [step, ht, if_true, if_false, Except.ok.injEq, Prod.mk.injEq] at hstep
    · obtain ⟨rfl, -⟩ := hstep
      rcases hph : s.phase with _ | st | st | st | st | st | st | st | ⟨er, st⟩
      · refine invIdleState _ rfl ?_
        show s.sending = false
        rw [hSend, hph]
        rfl
      · rw [(hConn st hph).2.2.1] at ht
        cases ht
      · rw [(hAuth st hph).2.2.1] at ht
        cases ht
      all_goals {
        rw [(hEnv (by rw [hph]; rfl)).2] at ht
        cases ht
      }
    · obtain ⟨rfl, -⟩ := hstep
      exact ⟨hSend, hConn, hAuth, hEnv⟩

/-- Every reachable state satisfies the invariant. -/
theorem reachableInv : ∀ s : ClientState, Reachable s → Inv s := by
  intro s h
  induction h with
  | init =>
    exact invIdleState initState rfl rfl
  | next s e s' acts hr hstep ih =>
    exact stepInv s e s' acts ih hstep

/-- C9: in every reachable state the `sending` flag equals envelope-run
activity — it is set exactly when `_sendmail` issues MAIL for a dequeued
stack, and `_senddone` clears it and emits the callback before anything the
re-invoked poll does; and `_poll` never dequeues while the flag is up, so a
second envelope run can never start under an active one. -/
theorem claim_C9 :
    (∀ s : ClientState, Reachable s → s.sending = envActive s.phase) ∧
    (∀ (s : ClientState) (stack : MessageStack),
      (_sendmail s stack).1.sending = true ∧
      (_sendmail s stack).1.phase = Phase.awaitingMail stack ∧
      (∃ arg, (_sendmail s stack).2 = [Action.cmd (Cmd.mail arg)])) ∧
    (∀ (err : Option Err) (s : ClientState) (stack : MessageStack),
      (_senddone err s stack).2 =
        Action.cb stack.msgId err ::
          (_poll { s with sending := false, phase := Phase.idle }).2) ∧
    (∀ s : ClientState, s.sending = true → (_poll s).1.queue = s.queue) := by
  refine ⟨?_, ?_, ?_, ?_⟩
  · intro s hr
    exact (reachableInv s hr).1
  · intro s stack
    exact ⟨rfl, rfl, ⟨_, rfl⟩⟩
  · intro err s stack
    rfl
  · intro s hs
    rcases hq : s.queue with _ | ⟨st0, rest⟩
    · by_cases hc : s.smtpState = SMTPState.CONNECTED
      · rw [poll_eq_arm s hq hc]
        exact hq
      · rw [poll_eq_empty_noop s hq hc]
        exact hq
    · by_cases h1 : s.smtpState = SMTPState.NOTCONNECTED
      · rw [poll_eq_connect s st0 rest hq h1]
        simp [_connect, hq]
      · rw [poll_eq_noop s st0 rest hq h1 (fun h => by rw [hs] at h; cases h.2.1)]
        exact hq

def c9sending : ClientState :=
  { queue := [c3stackB], sending := true, ready := true, timer := false,
    smtpState := SMTPState.CONNECTED, authorized := false,
    phase := Phase.awaitingData c2stack }

theorem claim_C9_witness :
    initState.sending = envActive initState.phase ∧
    (_poll c9sending).1.queue = c9sending.queue := by
  exact ⟨claim_C9.1 initState Reachable.init, claim_C9.2.2.2 c9sending rfl⟩
